import Mathlib

/-!
Verification of the rate-of-fire detection core (signal-processing library and
`RateOfFireDetector` pipeline) against its natural-language specification.

Modelling conventions:
* JavaScript numbers are modelled as exact rationals (`ℚ`).  The JS values
  `+Infinity` / `-Infinity`, which the library's `max`/`min` return on empty
  input, are modelled by the three-valued type `QInf`.
* `Math.sqrt` (used only inside `std`) has no exact rational counterpart, so
  the square-root routine is abstracted as an explicit function parameter
  `sq : ℚ → ℚ`; no verified property depends on its values.
* `Float32Array`s and JS arrays are `List ℚ`; element reads `a[i]` become
  `List.getD a i 0` (all reads in the source are in bounds at their call
  sites, so the default is never observed).
* The detector object is a `DetectorState` record; methods that `throw`
  are embedded in `Except String`, and methods with no throw path are total.
-/

/-- Extended rationals: models a JS number that may be `-Infinity` or
`+Infinity` (as returned by the library's `max`/`min` on empty input). -/
inductive QInf where
  | negInf : QInf
  | fin : ℚ → QInf
  | posInf : QInf
deriving DecidableEq, Repr

namespace QInf

/-- Order test `a <= b` on extended rationals (JS `<=` restricted to the
values that actually arise: no NaN). -/
def leb : QInf → QInf → Bool
  | .negInf, _ => true
  | _, .posInf => true
  | .fin a, .fin b => a ≤ b
  | _, _ => false

/-- Extract the finite value; collapses the infinities to `0`.  Used only at
call sites where the source guarantees a non-empty argument to `max`/`min`,
so the infinite cases are never reached there. -/
def toQ : QInf → ℚ
  | .fin q => q
  | _ => 0

end QInf

namespace SignalProcessing

/-- `mean(arr)`: `0` on empty input, else the sum divided by the length. -/
def mean (arr : List ℚ) : ℚ :=
  if arr = [] then 0
  else (arr.foldl (· + ·) 0) / arr.length

/-- `std(arr)`: `0` on empty input, else the square root of the population
variance (divisor `n`).  The square-root routine (`Math.sqrt` in the source)
is the abstracted parameter `sq`. -/
def std (sq : ℚ → ℚ) (arr : List ℚ) : ℚ :=
  if arr = [] then 0
  else
    let m := mean arr
    sq ((arr.foldl (fun acc x => acc + (x - m) * (x - m)) 0) / arr.length)

/-- `max(arr)`: `-Infinity` on empty input, else the running maximum. -/
def max (arr : List ℚ) : QInf :=
  match arr with
  | [] => .negInf
  | x :: xs => .fin (xs.foldl Max.max x)

/-- `min(arr)`: `+Infinity` on empty input, else the running minimum. -/
def min (arr : List ℚ) : QInf :=
  match arr with
  | [] => .posInf
  | x :: xs => .fin (xs.foldl Min.min x)

/-- `max(arr)` as a rational, for the call sites where the source guarantees
a non-empty argument (so the result is finite). -/
def maxD (arr : List ℚ) : ℚ := (max arr).toQ

/-- `min(arr)` as a rational, for call sites with a non-empty argument. -/
def minD (arr : List ℚ) : ℚ := (min arr).toQ

/-- `median(arr)`: `0` on empty input; else sort ascending and take the
middle element (average of the two middle elements for even length). -/
def median (arr : List ℚ) : ℚ :=
  if arr = [] then 0
  else
    let sorted := List.insertionSort (· ≤ ·) arr
    let mid := arr.length / 2
    if arr.length % 2 = 0 then (sorted.getD (mid - 1) 0 + sorted.getD mid 0) / 2
    else sorted.getD mid 0

/-- `abs(arr)`: elementwise absolute value.  (Source name: `abs`; renamed
because `abs` is the ambient absolute-value function.) -/
def absArr (arr : List ℚ) : List ℚ :=
  arr.map (fun x => if x < 0 then -x else x)

/-- `diff(arr)`: first differences; empty for length `<= 1`. -/
def diff (arr : List ℚ) : List ℚ :=
  if arr.length ≤ 1 then []
  else (List.range (arr.length - 1)).map (fun i => arr.getD (i + 1) 0 - arr.getD i 0)

/-- `ones(n)`: an all-ones kernel of length `n`. -/
def ones (n : ℕ) : List ℚ := List.replicate n 1

/-- `divide(arr, scalar)`: elementwise division by a scalar. -/
def divide (arr : List ℚ) (scalar : ℚ) : List ℚ := arr.map (· / scalar)

/-- The `'same'`-mode branch of `convolve(signal, kernel, mode)`:
`result[i]` accumulates `signal[i - ⌊k/2⌋ + j] * kernel[j]` over exactly the
`j` whose shifted index is in bounds (the source's loop skips out-of-range
indices). -/
def convolveSame (signal kernel : List ℚ) : List ℚ :=
  (List.range signal.length).map (fun i =>
    (List.range kernel.length).foldl (fun sum j =>
      if 0 ≤ (i : ℤ) - (kernel.length / 2 : ℕ) + (j : ℕ) ∧
          (i : ℤ) - (kernel.length / 2 : ℕ) + (j : ℕ) < signal.length then
        sum + signal.getD ((i : ℤ) - (kernel.length / 2 : ℕ) + (j : ℕ)).toNat 0 * kernel.getD j 0
      else sum) 0)

/-- `convolve(signal, kernel, mode)`: only `'same'` is supported; any other
mode throws. -/
def convolve (signal kernel : List ℚ) (mode : String) : Except String (List ℚ) :=
  if mode = "same" then .ok (convolveSame signal kernel)
  else .error "Only \"same\" mode is currently supported"

/-- Modelled from the spec: the zero-padding alternative that the spec
contrasts with the source's drop-out-of-range rule — the signal is extended
with zeros on both sides and every kernel tap contributes. -/
def convolveZeroPad (signal kernel : List ℚ) : List ℚ :=
  (List.range signal.length).map (fun i =>
    ((List.range kernel.length).map (fun j =>
      (if 0 ≤ (i : ℤ) - (kernel.length / 2 : ℕ) + (j : ℕ) ∧
          (i : ℤ) - (kernel.length / 2 : ℕ) + (j : ℕ) < signal.length then
        signal.getD ((i : ℤ) - (kernel.length / 2 : ℕ) + (j : ℕ)).toNat 0
      else 0) * kernel.getD j 0)).sum)

/-- Options record of `findPeaks`, with the source's destructuring
defaults (`height = -Infinity`, `distance = 1`, `prominence = 0`). -/
structure FindPeaksOptions where
  height : QInf := .negInf
  distance : ℚ := 1
  prominence : ℚ := 0
deriving DecidableEq, Repr

/-- Result record of `findPeaks`. -/
structure FindPeaksResult where
  peaks : List ℕ
  heights : List ℚ
deriving DecidableEq, Repr

/-- Step 1 of `findPeaks`: indices `1 <= i <= n-2` strictly above both
neighbours. -/
def localMaxima (data : List ℚ) : List ℕ :=
  (List.range data.length).filter (fun i =>
    decide (0 < i ∧ i + 1 < data.length ∧
      data.getD (i - 1) 0 < data.getD i 0 ∧ data.getD (i + 1) 0 < data.getD i 0))

/-- Step 2 of `findPeaks`: keep local maxima with `data[idx] >= height`. -/
def heightFiltered (data : List ℚ) (height : QInf) : List ℕ :=
  (localMaxima data).filter (fun idx => QInf.leb height (.fin (data.getD idx 0)))

/-- The left scan of the prominence computation: walks indices
`j, j-1, ..., 0` (started at `idx - 1`), lowering the running minimum `cur`,
and breaks after processing a sample `>= peakHeight`. -/
def leftScanAux (data : List ℚ) (ph : ℚ) : ℕ → ℚ → ℚ
  | 0, cur =>
    let v := data.getD 0 0
    if v < cur then v else cur
  | j + 1, cur =>
    let v := data.getD (j + 1) 0
    let cur' := if v < cur then v else cur
    if ph ≤ v then cur' else leftScanAux data ph j cur'

/-- `leftMin` of the prominence computation for the peak at `idx`:
initialised to the peak's own height; the loop runs from `idx - 1` down. -/
def leftMin (data : List ℚ) (ph : ℚ) (idx : ℕ) : ℚ :=
  match idx with
  | 0 => ph
  | j + 1 => leftScanAux data ph j ph

/-- The right scan of the prominence computation: walks indices
`i, i+1, ...` for at most `fuel` steps (`fuel` = number of remaining
in-range indices), lowering the running minimum, breaking after a sample
`>= peakHeight`. -/
def rightScanAux (data : List ℚ) (ph : ℚ) : ℕ → ℕ → ℚ → ℚ
  | 0, _, cur => cur
  | fuel + 1, i, cur =>
    let v := data.getD i 0
    let cur' := if v < cur then v else cur
    if ph ≤ v then cur' else rightScanAux data ph fuel (i + 1) cur'

/-- `rightMin` of the prominence computation for the peak at `idx`: the
loop runs from `idx + 1` up to `n - 1`. -/
def rightMin (data : List ℚ) (ph : ℚ) (idx : ℕ) : ℚ :=
  rightScanAux data ph (data.length - (idx + 1)) (idx + 1) ph

/-- The prominence test of step 3: keep `idx` iff
`data[idx] - max(leftMin, rightMin) >= minProminence`. -/
def promKeep (data : List ℚ) (minProminence : ℚ) (idx : ℕ) : Bool :=
  let peakHeight := data.getD idx 0
  decide (minProminence ≤
    peakHeight - Max.max (leftMin data peakHeight idx) (rightMin data peakHeight idx))

/-- Step 3 of `findPeaks`: when `prominence > 0`, filter the height-filtered
candidates by the prominence test against `prominence * max(data)`;
otherwise pass them through unchanged. -/
def prominenceFiltered (data : List ℚ) (height : QInf) (prominence : ℚ) : List ℕ :=
  if 0 < prominence then
    (heightFiltered data height).filter (promKeep data (prominence * maxD data))
  else heightFiltered data height

/-- Comparator relation of the height-descending sort
(JS `(a, b) => b.height - a.height`). -/
def hgeRel (p q : ℕ × ℚ) : Prop := q.2 ≤ p.2

instance : DecidableRel hgeRel := fun p q => inferInstanceAs (Decidable (q.2 ≤ p.2))

/-- Candidates paired with their heights, sorted by height descending.
`insertionSort` is stable, matching the (stable) JS `Array.prototype.sort`,
so equal-height candidates stay in ascending index order. -/
def sortedByHeight (data : List ℚ) (cands : List ℕ) : List (ℕ × ℚ) :=
  List.insertionSort hgeRel (cands.map (fun idx => (idx, data.getD idx 0)))

/-- Step 4 of `findPeaks`: greedy distance suppression.  Candidates are
consumed in the given (height-descending) order; a candidate is dropped iff
it lies strictly within `distance` of an already-accepted peak. -/
def distanceFilter (distance : ℚ) : List ℕ → List ℕ → List ℕ
  | acc, [] => acc
  | acc, c :: cs =>
    if acc.any (fun p => decide (|(c : ℚ) - (p : ℚ)| < distance)) then
      distanceFilter distance acc cs
    else distanceFilter distance (acc ++ [c]) cs

/-- `findPeaks(data, options)`: local maxima, height filter, prominence
filter, greedy height-first distance suppression, then ascending sort. -/
def findPeaks (data : List ℚ) (options : FindPeaksOptions) : FindPeaksResult :=
  if data.length < 3 then ⟨[], []⟩
  else if prominenceFiltered data options.height options.prominence = [] then ⟨[], []⟩
  else
    let peaks := List.insertionSort (· ≤ ·)
      (distanceFilter options.distance []
        ((sortedByHeight data (prominenceFiltered data options.height options.prominence)).map
          Prod.fst))
    ⟨peaks, peaks.map (fun idx => data.getD idx 0)⟩

end SignalProcessing

/-- The `RateOfFireDetector` object's fields: the six configuration options
with their constructor defaults, and the progressively populated analysis
results (`sampleRate`/`audioData` are set by `extractAudio`, `envelope` by
`calculateEnvelope`, `shotTimes` by `detectPeaks`, `bursts` by
`groupIntoBursts`). -/
structure DetectorState where
  peakThresholdStd : ℚ := 6 / 5
  minShotSpacing : ℚ := 1 / 20
  burstGapThreshold : ℚ := 1 / 5
  windowSize : ℚ := 1 / 500
  minPeakProminence : ℚ := 1 / 10
  minBurstCount : ℕ := 5
  sampleRate : Option ℚ := none
  audioData : Option (List ℚ) := none
  envelope : Option (List ℚ) := none
  shotTimes : List ℚ := []
  bursts : List (List ℕ) := []
deriving DecidableEq, Repr

/-- Per-burst statistics record built by `calculateRates`. -/
structure BurstInfo where
  burstNumber : ℕ
  startTime : ℚ
  endTime : ℚ
  duration : ℚ
  numShots : ℕ
  rateRpm : ℚ
  meanInterval : ℚ
  stdInterval : ℚ
  minInterval : QInf
  maxInterval : QInf
  shotTimes : List ℚ
deriving DecidableEq, Repr

/-- Aggregate summary record built by `generateSummary`. -/
structure Summary where
  totalShots : ℕ
  totalBursts : ℕ
  overallRateRpm : ℚ
  meanBurstRateRpm : ℚ
  medianBurstRateRpm : ℚ
  minBurstRateRpm : QInf
  maxBurstRateRpm : QInf
  stdBurstRateRpm : ℚ
deriving DecidableEq, Repr

namespace RateOfFireDetector

open SignalProcessing

/-- `calculateEnvelope()`: throws unless `extractAudio` has populated the
audio data and sample rate (the JS truthiness test also rejects a zero
sample rate); rectifies the audio and, when the window spans more than one
sample, smooths it with a normalized box kernel in `'same'` mode. -/
def calculateEnvelope (s : DetectorState) : Except String DetectorState :=
  match s.audioData, s.sampleRate with
  | some audio, some sr =>
    if sr = 0 then .error "Must call extractAudio first"
    else
      let windowSamples : ℕ := (Max.max (Int.floor (s.windowSize * sr)) 1).toNat
      let absAudio := absArr audio
      if 1 < windowSamples then
        let window := divide (ones windowSamples) windowSamples
        .ok { s with envelope := some (convolveSame absAudio window) }
      else .ok { s with envelope := some absAudio }
  | _, _ => .error "Must call extractAudio first"

/-- `detectPeaks()`: throws unless `calculateEnvelope` has populated the
envelope (and the sample rate is set and truthy); computes the adaptive
threshold `mean + peakThresholdStd * std`, runs `findPeaks`, and stores the
peak indices converted to times.  Returns the updated state together with
the `{peaks, properties}` result.  `sq` abstracts `Math.sqrt`. -/
def detectPeaks (sq : ℚ → ℚ) (s : DetectorState) :
    Except String (DetectorState × FindPeaksResult) :=
  match s.envelope, s.sampleRate with
  | some env, some sr =>
    if sr = 0 then .error "Must call calculateEnvelope first"
    else
      let threshold := mean env + s.peakThresholdStd * std sq env
      let minDistance : ℤ := Int.floor (s.minShotSpacing * sr)
      let r := findPeaks env
        { height := .fin threshold, distance := (minDistance : ℚ),
          prominence := s.minPeakProminence }
      .ok ({ s with shotTimes := r.peaks.map (fun idx => (idx : ℚ) / sr) }, r)
  | _, _ => .error "Must call calculateEnvelope first"

/-- The grouping loop of `groupIntoBursts`, iterating over the shot indices
`is = [1, ..., n-1]`: extend `current` while the gap to the previous shot is
`<= θ`; otherwise close `current` (kept only when it has at least `minCount`
shots) and restart from the present index.  The final `current` is closed the
same way when the loop ends. -/
def groupGo (θ : ℚ) (minCount : ℕ) (times : List ℚ) :
    List ℕ → List ℕ → List (List ℕ) → List (List ℕ)
  | [], current, acc =>
    if minCount ≤ current.length then acc ++ [current] else acc
  | i :: rest, current, acc =>
    if times.getD i 0 - times.getD (i - 1) 0 ≤ θ then
      groupGo θ minCount times rest (current ++ [i]) acc
    else if minCount ≤ current.length then
      groupGo θ minCount times rest [i] (acc ++ [current])
    else groupGo θ minCount times rest [i] acc

/-- `groupIntoBursts()`: with zero detected shot times it returns early,
before the burst list is reset, leaving the state untouched; otherwise it
recomputes `bursts` from scratch with the grouping loop.  The source method
has no throw path, so the embedding always returns `Except.ok`. -/
def groupIntoBursts (s : DetectorState) : Except String DetectorState :=
  if s.shotTimes = [] then .ok s
  else
    let grouped := groupGo s.burstGapThreshold s.minBurstCount s.shotTimes
      ((List.range s.shotTimes.length).drop 1) [0] []
    .ok { s with bursts := grouped }

/-- `calculateRates()`: one `BurstInfo` per stored burst; `rateRpm` is
`(numShots - 1) / duration * 60` guarded by `duration > 0`.  `sq` abstracts
`Math.sqrt` (used for the interval standard deviation). -/
def calculateRates (sq : ℚ → ℚ) (s : DetectorState) : List BurstInfo :=
  s.bursts.enum.map (fun p =>
    let times := p.2.map (fun idx => s.shotTimes.getD idx 0)
    let startTime := times.getD 0 0
    let endTime := times.getD (times.length - 1) 0
    let duration := endTime - startTime
    let numShots := times.length
    let intervals := diff times
    { burstNumber := p.1 + 1
      startTime := startTime
      endTime := endTime
      duration := duration
      numShots := numShots
      rateRpm := if 0 < duration then ((numShots : ℚ) - 1) / duration * 60 else 0
      meanInterval := mean intervals
      stdInterval := std sq intervals
      minInterval := min intervals
      maxInterval := max intervals
      shotTimes := times })

/-- `generateSummary(burstResults)`: all-zero record when there are no
bursts; otherwise aggregate statistics over the per-burst rates plus the
pooled overall rate `(totalCount - 1) / (maxTime - minTime) * 60` (zero when
fewer than two pooled shots exist). -/
def generateSummary (sq : ℚ → ℚ) (burstResults : List BurstInfo) : Summary :=
  if burstResults = [] then
    { totalShots := 0, totalBursts := 0, overallRateRpm := 0, meanBurstRateRpm := 0
      medianBurstRateRpm := 0, minBurstRateRpm := .fin 0, maxBurstRateRpm := .fin 0
      stdBurstRateRpm := 0 }
  else
    let rates := burstResults.map (·.rateRpm)
    let allShotTimes := (burstResults.map (·.shotTimes)).flatten
    { totalShots := (burstResults.map (·.numShots)).sum
      totalBursts := burstResults.length
      overallRateRpm :=
        if 2 ≤ allShotTimes.length then
          ((allShotTimes.length : ℚ) - 1) / (maxD allShotTimes - minD allShotTimes) * 60
        else 0
      meanBurstRateRpm := mean rates
      medianBurstRateRpm := median rates
      minBurstRateRpm := min rates
      maxBurstRateRpm := max rates
      stdBurstRateRpm := std sq rates }

end RateOfFireDetector

/-- A concrete stand-in for the abstracted square-root routine, used to
instantiate witnesses (no verified property depends on its values). -/
def sq0 : ℚ → ℚ := fun _ => 0

/-- Fixture for the burst-grouping example: the spec's shot times
`[0.0, 0.1, 0.15, 0.5, 0.55, 0.6]` with `burstGapThreshold = 0.2` and
`minBurstCount = 3`. -/
def s5 : DetectorState :=
  { shotTimes := [0, 1/10, 3/20, 1/2, 11/20, 3/5]
    burstGapThreshold := 1/5
    minBurstCount := 3 }

/-- Fixture with two bursts (11 shots spanning 1 s at 600 RPM, then after an
idle gap of 0.25 s > threshold, 4 shots spanning 0.5 s at 360 RPM) tuned so
that the pooled overall rate equals the mean of the per-burst rates:
both come out at exactly 480 RPM. -/
def s6 : DetectorState :=
  { shotTimes := [0, 1/8, 1/4, 3/8, 1/2, 5/8, 3/4, 13/16, 7/8, 15/16, 1,
      5/4, 23/16, 13/8, 7/4]
    burstGapThreshold := 1/5
    minBurstCount := 2 }

/-- Fixture for the rate computation: one stored burst of 5 shots spanning
0.4 s. -/
def s8 : DetectorState :=
  { shotTimes := [0, 1/10, 1/5, 3/10, 2/5]
    bursts := [[0, 1, 2, 3, 4]] }

/-- Fixture for the frame-effect claim: a reused detector holding stale
bursts from a prior run, with zero currently detected shot times. -/
def s10 : DetectorState :=
  { shotTimes := []
    bursts := [[0, 1], [2, 3]] }

/-- The state `s5` after burst grouping (two bursts of three shots). -/
def s5g : DetectorState := { s5 with bursts := [[0, 1, 2], [3, 4, 5]] }

/-- The state `s6` after burst grouping (an 11-shot and a 4-shot burst). -/
def s6g : DetectorState :=
  { s6 with bursts := [[0, 1, 2, 3, 4, 5, 6, 7, 8, 9, 10], [11, 12, 13, 14]] }

/-- Fallback `BurstInfo` used as the `getD` default in witnesses. -/
def brDefault : BurstInfo := ⟨0, 0, 0, 0, 0, 0, 0, 0, .fin 0, .fin 0, []⟩

section Theorems

open SignalProcessing RateOfFireDetector

set_option maxRecDepth 40000

/-- C9: on an empty input sequence, `mean`, `std` and `median` return `0`,
`max` returns `-Infinity` and `min` returns `+Infinity`, rather than raising
an error (the `std` result is `0` for every square-root routine, since the
empty case returns before the square root is taken). -/
theorem empty_input_sentinels :
    mean [] = 0 ∧ (∀ sq : ℚ → ℚ, std sq [] = 0) ∧ median [] = 0 ∧
    SignalProcessing.max [] = QInf.negInf ∧ SignalProcessing.min [] = QInf.posInf :=
  ⟨rfl, fun _ => rfl, rfl, rfl, rfl⟩

/-- C1: `findPeaks([0,1,0,1,0], {height: 0.5, distance: 3, prominence: 0})`
returns exactly the single peak index `1`: the two equal-height peaks at
indices 1 and 3 are closer than `distance = 3`, the stable height-descending
sort keeps index 1 first, and the greedy distance filter then rejects
index 3. -/
theorem findPeaks_equal_height_close_peaks :
    (findPeaks [0, 1, 0, 1, 0]
      { height := .fin (1/2), distance := 3, prominence := 0 }).peaks = [1] := by
  with_unfolding_all decide

/-- C5: burst grouping over shot times `[0.0, 0.1, 0.15, 0.5, 0.55, 0.6]`
with `burstGapThreshold = 0.2` and `minBurstCount = 3` splits at the `0.35`
gap and retains exactly two bursts of three shots each, namely
`[0.0, 0.1, 0.15]` and `[0.5, 0.55, 0.6]`. -/
theorem groupIntoBursts_spec_example :
    groupIntoBursts s5 = .ok s5g ∧
    s5g.bursts.map (List.map (fun i => s5g.shotTimes.getD i 0)) =
      [[0, 1/10, 3/20], [1/2, 11/20, 3/5]] := by
  exact ⟨by with_unfolding_all rfl, by with_unfolding_all decide⟩

/-- C10: when burst grouping runs with zero detected shot times it returns
early, before the burst list is reset, so the stored state — in particular
any stale burst list from a prior run — is left exactly as it was. -/
theorem groupIntoBursts_empty_noop :
    ∀ s : DetectorState, s.shotTimes = [] → groupIntoBursts s = .ok s := by
  intro s h
  simp [groupIntoBursts, h]

/-- Witness for C10: a reused detector with stale bursts `[[0,1],[2,3]]` and
no shot times keeps its stale bursts untouched. -/
theorem groupIntoBursts_empty_noop_witness :
    groupIntoBursts s10 = .ok s10 ∧ s10.bursts = [[0, 1], [2, 3]] :=
  ⟨groupIntoBursts_empty_noop s10 rfl, rfl⟩

/-- C2 (amended): `calculateEnvelope` invoked before audio extraction and
`detectPeaks` invoked before envelope calculation fail with an error, but
burst grouping invoked before peak detection does not fail: with no shot
times recorded it returns successfully with the state unchanged. -/
theorem pipeline_stage_guards :
    ∀ (sq : ℚ → ℚ) (s : DetectorState),
      (s.audioData = none → calculateEnvelope s = .error "Must call extractAudio first") ∧
      (s.envelope = none → detectPeaks sq s = .error "Must call calculateEnvelope first") ∧
      (s.shotTimes = [] → groupIntoBursts s = .ok s) := by
  intro sq s
  refine ⟨fun h => ?_, fun h => ?_, fun h => ?_⟩
  · rcases hsr : s.sampleRate with _ | sr <;> simp [calculateEnvelope, h, hsr]
  · rcases hsr : s.sampleRate with _ | sr <;> simp [detectPeaks, h, hsr]
  · simp [groupIntoBursts, h]

/-- Witness for C2: the guards evaluated on a fresh detector. -/
theorem pipeline_stage_guards_witness :
    calculateEnvelope {} = .error "Must call extractAudio first" ∧
    detectPeaks sq0 {} = .error "Must call calculateEnvelope first" ∧
    groupIntoBursts ({} : DetectorState) = .ok {} :=
  ⟨(pipeline_stage_guards sq0 {}).1 rfl, (pipeline_stage_guards sq0 {}).2.1 rfl,
    (pipeline_stage_guards sq0 {}).2.2 rfl⟩

/-- Counterexample for C2: on a fresh detector (peak detection never run),
`groupIntoBursts` succeeds and returns the state unchanged — it does not
fail with any error, contradicting the claimed `PipelineOutOfOrder`
failure. -/
theorem groupIntoBursts_fresh_silent :
    groupIntoBursts ({} : DetectorState) = .ok {} ∧
    ∀ e : String, groupIntoBursts ({} : DetectorState) ≠ .error e := by
  refine ⟨rfl, fun e h => ?_⟩
  rw [show groupIntoBursts ({} : DetectorState) = .ok {} from rfl] at h
  exact Except.noConfusion h

/-- C8: for every burst record produced by `calculateRates`, `rateRpm`
equals `(numShots - 1) / duration * 60` when the duration is positive and
`0` when the duration is zero (the divide-by-zero guard); and on a burst of
5 shots spanning 0.4 s the computed rate is exactly 600 RPM. -/
theorem rateRpm_formula :
    (∀ (sq : ℚ → ℚ) (s : DetectorState), ∀ info ∈ calculateRates sq s,
      (0 < info.duration → info.rateRpm = ((info.numShots : ℚ) - 1) / info.duration * 60) ∧
      (info.duration = 0 → info.rateRpm = 0)) ∧
    (calculateRates sq0 s8).map (fun b => b.rateRpm) = [600] := by
  constructor
  · intro sq s info hmem
    unfold calculateRates at hmem
    simp only [List.mem_map] at hmem
    obtain ⟨p, -, rfl⟩ := hmem
    dsimp only
    constructor
    · intro hd
      rw [if_pos hd]
    · intro hd
      rw [hd, if_neg (lt_irrefl 0)]
  · with_unfolding_all decide

/-- Witness for C8: the single burst of the `s8` fixture (5 shots spanning
0.4 s) satisfies the positive-duration rate formula. -/
theorem rateRpm_formula_witness :
    ((calculateRates sq0 s8).getD 0 brDefault).rateRpm =
      ((((calculateRates sq0 s8).getD 0 brDefault).numShots : ℚ) - 1) /
        ((calculateRates sq0 s8).getD 0 brDefault).duration * 60 :=
  (rateRpm_formula.1 sq0 s8 _ (by with_unfolding_all decide)).1
    (by with_unfolding_all decide)

/-- Counterexample for C6: `s6` is a non-trivial fixture — two bursts (11
shots at 600 RPM, then 4 shots at 360 RPM) separated by an idle gap of
0.25 s, strictly greater than the 0.2 s burst-gap threshold — on which the
pooled `overallRateRpm` and the mean of the per-burst rates are exactly
equal (both 480 RPM), so the claimed inequality does not hold for every
such fixture. -/
theorem overall_rate_eq_mean_rate_fixture :
    groupIntoBursts s6 = .ok s6g ∧
    (generateSummary sq0 (calculateRates sq0 s6g)).totalBursts = 2 ∧
    s6.burstGapThreshold < s6g.shotTimes.getD 11 0 - s6g.shotTimes.getD 10 0 ∧
    (generateSummary sq0 (calculateRates sq0 s6g)).overallRateRpm =
      (generateSummary sq0 (calculateRates sq0 s6g)).meanBurstRateRpm := by
  refine ⟨by with_unfolding_all rfl, by with_unfolding_all decide,
    by with_unfolding_all decide, by with_unfolding_all decide⟩

/-- C6 (amended): the pooled overall rate is genuinely distinct from the
mean of per-burst rates — on the spec's own multi-burst fixture (shot times
`[0, 0.1, 0.15, 0.5, 0.55, 0.6]`, two bursts separated by an idle gap) the
two differ (500 vs 1000 RPM) — but the inequality is not universal: a tuned
multi-burst fixture can make the two coincide. -/
theorem overall_rate_ne_mean_rate_spec_example :
    groupIntoBursts s5 = .ok s5g ∧
    (generateSummary sq0 (calculateRates sq0 s5g)).totalBursts = 2 ∧
    (generateSummary sq0 (calculateRates sq0 s5g)).overallRateRpm ≠
      (generateSummary sq0 (calculateRates sq0 s5g)).meanBurstRateRpm := by
  refine ⟨by with_unfolding_all rfl, by with_unfolding_all decide,
    by with_unfolding_all decide⟩

/-- Conditional accumulation equals summing the guarded terms. -/
theorem foldl_add_ite (C : ℕ → Prop) [DecidablePred C] (f : ℕ → ℚ) :
    ∀ (l : List ℕ) (init : ℚ),
      l.foldl (fun sum j => if C j then sum + f j else sum) init
        = init + (l.map (fun j => if C j then f j else 0)).sum := by
  intro l
  induction l with
  | nil => intro init; simp
  | cons a t ih =>
    intro init
    simp only [List.foldl_cons, List.map_cons, List.sum_cons, ih]
    split_ifs with h <;> ring

/-- Skipping out-of-range kernel taps and zero-padding the signal produce
the same convolution output: the skipped terms are exactly the terms that
vanish under zero-padding (the source never renormalizes by the number of
in-range taps — its `count` variable is unused). -/
theorem convolve_drop_eq_zero_pad_aux (signal kernel : List ℚ) :
    convolveSame signal kernel = convolveZeroPad signal kernel := by
  unfold convolveSame convolveZeroPad
  apply List.map_congr_left
  intro i _
  rw [foldl_add_ite, zero_add]
  congr 1
  apply List.map_congr_left
  intro j _
  split_ifs with h
  · rfl
  · exact (zero_mul _).symm

/-- C3 (amended): dropping out-of-range terms in `'same'`-mode convolution
is equivalent to zero-padding — for every signal and kernel the two
boundary rules produce identical output, because the code sums the raw
products without renormalizing by the number of in-range taps. -/
theorem convolve_drop_equals_zero_padding :
    ∀ (signal kernel : List ℚ), convolveSame signal kernel = convolveZeroPad signal kernel :=
  fun signal kernel => convolve_drop_eq_zero_pad_aux signal kernel

/-- Counterexample for C3: there is no signal/kernel pair on which the
drop-out-of-range rule differs from zero-padding, refuting the claimed
existence of one. -/
theorem no_input_separates_drop_from_zero_pad :
    ¬ ∃ (signal kernel : List ℚ), convolveSame signal kernel ≠ convolveZeroPad signal kernel :=
  fun ⟨signal, kernel, h⟩ => h (convolve_drop_eq_zero_pad_aux signal kernel)

/-- C4: when `prominence > 0`, a height-filtered candidate index survives
the prominence filter if and only if `data[idx] - max(leftMin, rightMin)`,
with `leftMin`/`rightMin` computed by the stop-at-a-sample-`>=`-peak-height
scans, is at least `prominence * globalMax(data)`. -/
theorem prominence_filter_iff :
    ∀ (data : List ℚ) (height : QInf) (prominence : ℚ), 0 < prominence →
      ∀ idx : ℕ,
        (idx ∈ prominenceFiltered data height prominence ↔
          idx ∈ heightFiltered data height ∧
            prominence * maxD data ≤
              data.getD idx 0 -
                Max.max (leftMin data (data.getD idx 0) idx)
                  (rightMin data (data.getD idx 0) idx)) := by
  intro data height prominence hp idx
  unfold prominenceFiltered
  rw [if_pos hp]
  simp [List.mem_filter, promKeep]

/-- Witness for C4: the characterization instantiated at `prominence = 1/2`
and candidate index `1` of the envelope `[0, 1, 0, 1, 0]`. -/
theorem prominence_filter_iff_witness :
    (1 ∈ prominenceFiltered [0, 1, 0, 1, 0] .negInf (1/2) ↔
      1 ∈ heightFiltered [0, 1, 0, 1, 0] .negInf ∧
        (1/2) * maxD [0, 1, 0, 1, 0] ≤
          [0, 1, 0, 1, 0].getD 1 0 -
            Max.max (leftMin [0, 1, 0, 1, 0] ([0, 1, 0, 1, 0].getD 1 0) 1)
              (rightMin [0, 1, 0, 1, 0] ([0, 1, 0, 1, 0].getD 1 0) 1)) :=
  prominence_filter_iff [0, 1, 0, 1, 0] .negInf (1/2) (by norm_num) 1

/-- The greedy distance filter only ever appends candidates to its
accumulator, so its output is a sublist of accumulator ++ candidates. -/
theorem distanceFilter_sublist (d : ℚ) :
    ∀ (cs acc : List ℕ), List.Sublist (distanceFilter d acc cs) (acc ++ cs) := by
  intro cs
  induction cs with
  | nil => intro acc; simp [distanceFilter]
  | cons c cs ih =>
    intro acc
    unfold distanceFilter
    split
    · exact (ih acc).trans ((List.sublist_cons_self c cs).append_left acc)
    · have h := ih (acc ++ [c])
      rwa [List.append_assoc, List.singleton_append] at h

/-- The greedy distance filter preserves pairwise separation: starting from
a pairwise-separated accumulator, any two distinct accepted indices differ
by at least `d` (a candidate is only accepted after the `|c - p| < d` test
fails against every already-accepted peak). -/
theorem distanceFilter_sep (d : ℚ) :
    ∀ (cs acc : List ℕ),
      (∀ a ∈ acc, ∀ b ∈ acc, a ≠ b → d ≤ |(a : ℚ) - (b : ℚ)|) →
      ∀ a ∈ distanceFilter d acc cs, ∀ b ∈ distanceFilter d acc cs, a ≠ b →
        d ≤ |(a : ℚ) - (b : ℚ)| := by
  intro cs
  induction cs with
  | nil => intro acc h; simpa [distanceFilter] using h
  | cons c cs ih =>
    intro acc h
    unfold distanceFilter
    split
    · exact ih acc h
    · rename_i hany
      apply ih
      intro a ha b hb hne
      have hsep' : ∀ p ∈ acc, d ≤ |(c : ℚ) - (p : ℚ)| := by
        intro p hp
        by_contra hlt
        exact hany (List.any_eq_true.mpr ⟨p, hp, decide_eq_true (not_le.mp hlt)⟩)
      rcases List.mem_append.mp ha with ha' | ha' <;>
        rcases List.mem_append.mp hb with hb' | hb'
      · exact h a ha' b hb' hne
      · rw [List.mem_singleton] at hb'
        subst hb'
        rw [abs_sub_comm]
        exact hsep' a ha'
      · rw [List.mem_singleton] at ha'
        subst ha'
        exact hsep' b hb'
      · rw [List.mem_singleton] at ha' hb'
        exact absurd (ha'.trans hb'.symm) hne

/-- The candidate lists of `findPeaks` have no duplicate indices: they are
successive filters of `List.range`. -/
theorem prominenceFiltered_nodup (data : List ℚ) (h : QInf) (p : ℚ) :
    (prominenceFiltered data h p).Nodup := by
  have h0 : (localMaxima data).Nodup := by
    unfold localMaxima
    exact List.Nodup.filter _ (List.nodup_range _)
  have h1 : (heightFiltered data h).Nodup := by
    unfold heightFiltered
    exact List.Nodup.filter _ h0
  unfold prominenceFiltered
  split
  · exact List.Nodup.filter _ h1
  · exact h1

/-- The height-descending sort permutes the candidate indices. -/
theorem sortedByHeight_fst_perm (data : List ℚ) (cands : List ℕ) :
    List.Perm ((sortedByHeight data cands).map Prod.fst) cands := by
  unfold sortedByHeight
  have h := (List.perm_insertionSort hgeRel
    (cands.map (fun idx => (idx, data.getD idx 0)))).map Prod.fst
  simpa [List.map_map, Function.comp_def] using h

/-- C7: for every input sequence and every option set, the peak-index list
returned by `findPeaks` is strictly increasing (hence has unique indices),
and every pair of distinct returned indices differs by at least the
`distance` parameter. -/
theorem findPeaks_strictly_increasing_and_separated
    (data : List ℚ) (opts : FindPeaksOptions) :
    List.Sorted (· < ·) (findPeaks data opts).peaks ∧
    ∀ a ∈ (findPeaks data opts).peaks, ∀ b ∈ (findPeaks data opts).peaks, a ≠ b →
      opts.distance ≤ |(a : ℚ) - (b : ℚ)| := by
  unfold findPeaks
  split
  · exact ⟨List.sorted_nil, by simp⟩
  split
  · exact ⟨List.sorted_nil, by simp⟩
  show List.Sorted (· < ·) (List.insertionSort (· ≤ ·) (distanceFilter opts.distance []
      ((sortedByHeight data (prominenceFiltered data opts.height opts.prominence)).map
        Prod.fst))) ∧ _
  have hnd : (((sortedByHeight data
      (prominenceFiltered data opts.height opts.prominence)).map Prod.fst)).Nodup :=
    (sortedByHeight_fst_perm data _).nodup_iff.mpr (prominenceFiltered_nodup data _ _)
  have hacc_nd : (distanceFilter opts.distance []
      ((sortedByHeight data (prominenceFiltered data opts.height opts.prominence)).map
        Prod.fst)).Nodup :=
    List.Nodup.sublist (distanceFilter_sublist _ _ _) hnd
  have hperm := List.perm_insertionSort (· ≤ ·) (distanceFilter opts.distance []
    ((sortedByHeight data (prominenceFiltered data opts.height opts.prominence)).map
      Prod.fst))
  constructor
  · have hs := List.sorted_insertionSort (· ≤ ·) (distanceFilter opts.distance []
      ((sortedByHeight data (prominenceFiltered data opts.height opts.prominence)).map
        Prod.fst))
    have hn := hperm.nodup_iff.mpr hacc_nd
    exact (hs.and hn).imp (fun hab => lt_of_le_of_ne hab.1 hab.2)
  · intro a ha b hb hne
    exact distanceFilter_sep opts.distance _ [] (by simp) a (hperm.subset ha)
      b (hperm.subset hb) hne

/-- Witness for C7: on the envelope `[0, 1, 0, 0, 1, 0]` with
`distance = 3`, the returned peaks `1` and `4` are strictly increasing and
separated by at least `3`. -/
theorem findPeaks_invariant_witness :
    List.Sorted (· < ·)
      (findPeaks [0, 1, 0, 0, 1, 0]
        { height := .fin (1/2), distance := 3, prominence := 0 }).peaks ∧
    ({ height := .fin (1/2), distance := 3, prominence := 0 } :
        FindPeaksOptions).distance ≤ |(1 : ℚ) - (4 : ℚ)| :=
  ⟨(findPeaks_strictly_increasing_and_separated [0, 1, 0, 0, 1, 0]
      { height := .fin (1/2), distance := 3, prominence := 0 }).1,
    (findPeaks_strictly_increasing_and_separated [0, 1, 0, 0, 1, 0]
      { height := .fin (1/2), distance := 3, prominence := 0 }).2
      1 (by with_unfolding_all decide) 4 (by with_unfolding_all decide) (by decide)⟩

end Theorems
